import Mathlib

/-!
Verification development for QuantLib's `OptionletStripper`
(`ql/voltermstructures/interestrate/caplet/optionletstripper.cpp`).

The embedding is shallow:

* `Period` values (index tenor, cap/floor lengths, surface maturities) are
  modelled as natural numbers counting a fixed common unit (months); QuantLib
  adds periods of equal units by adding lengths and compares
  month/year periods after exact unit conversion, so the arithmetic of the
  constructor is faithfully `Nat` arithmetic.
* `Real` quantities (strikes, volatilities, prices, discount factors) are
  modelled as rationals `ℚ`; dates are abstract naturals.
* External collaborators (the cap/floor vol surface, the Ibor index, the
  Black engine / `MakeCapFloor` pricing, the discount curve, the
  `blackFormulaImpliedStdDev` solver and `std::sqrt`) are black boxes,
  bundled as function fields of a `MarketEnv` record.  The solver returns
  `Except String ℚ`: `error` models the C++ exception caught at the call
  site.
* The mutable member matrices of the stripper are total functions
  `Nat → Nat → ℚ` updated pointwise; `performCalculations` threads this
  state through the two nested loops exactly as the C++ does and
  short-circuits when `QL_FAIL` aborts the pass.
-/

/-- The instrument type `CapFloor::Type` (only the `Cap`/`Floor` alternatives are used here). -/
inductive CapFloorType
  | Cap
  | Floor
deriving DecidableEq, Repr

/-- The option type `Option::Type`. -/
inductive OptionType
  | Call
  | Put
deriving DecidableEq, Repr

/-- The five mutable member matrices of the stripper, as total functions
(row = optionlet period, column = strike). -/
structure CalcState where
  capfloorPrices : Nat → Nat → ℚ
  optionletPrices : Nat → Nat → ℚ
  capfloorVols : Nat → Nat → ℚ
  optionletVols : Nat → Nat → ℚ
  optionletStDevs : Nat → Nat → ℚ

attribute [ext] CalcState

/-- Pointwise matrix update, modelling `m[i][j] = v`. -/
def mupd (m : Nat → Nat → ℚ) (i j : Nat) (v : ℚ) : Nat → Nat → ℚ :=
  fun a b => if a = i ∧ b = j then v else m a b

/-- The loop of the constructor (lines 50-53 of the source):
`while (capfloorLengths_.back()+indexTenor<=maxCapFloorTenor)` push
`optionletTenors_.back()+indexTenor` onto the tenors and the new tenor plus
`indexTenor` onto the lengths.  `fuel` bounds the iteration count; the
caller passes `maxCapFloorTenor + 1`, which is enough whenever the index
tenor is positive (the C++ loop would not terminate for a zero tenor). -/
def gridLoop (indexTenor maxCapFloorTenor : Nat) :
    Nat → List Nat → List Nat → List Nat × List Nat
  | 0, tenors, lengths => (tenors, lengths)
  | Nat.succ fuel, tenors, lengths =>
    if lengths.getLastD 0 + indexTenor ≤ maxCapFloorTenor then
      gridLoop indexTenor maxCapFloorTenor fuel
        (tenors ++ [tenors.getLastD 0 + indexTenor])
        (lengths ++ [tenors.getLastD 0 + indexTenor + indexTenor])
    else (tenors, lengths)

/-- Matrices as default-constructed at the end of the constructor:
`optionletStDevs_` is filled with the first guess `0.14` (line 60-61),
the other matrices carry no meaningful values yet (modelled as `0`). -/
def initCalcState : CalcState :=
  { capfloorPrices := fun _ _ => 0
    optionletPrices := fun _ _ => 0
    capfloorVols := fun _ _ => 0
    optionletVols := fun _ _ => 0
    optionletStDevs := fun _ _ => (0.14 : ℚ) }

/-- Switch-strike normalization (lines 68-71): a single supplied strike is
broadcast to all periods; an empty supplied vector is replaced by a uniform
`0.04` vector.  Both tests inspect the *supplied* vector, in source order. -/
def normalizeSwitchStrikes (sw : List ℚ) (n : Nat) : List ℚ :=
  let sw1 := if sw.length = 1 then List.replicate n (sw.getD 0 0) else sw
  if sw = [] then List.replicate n (0.04 : ℚ) else sw1

/-- The constructed (immutable) part of an `OptionletStripper`. -/
structure OptionletStripper where
  optionletTenors : List Nat
  capfloorLengths : List Nat
  nOptionletTenors : Nat
  switchStrikes : List ℚ
  nStrikes : Nat
  initState : CalcState

instance : Inhabited OptionletStripper :=
  ⟨⟨[], [], 0, [], 0, initCalcState⟩⟩

/-- The constructor `OptionletStripper::OptionletStripper` (lines 31-73).
`none` models a thrown `QL_REQUIRE` failure: either the surface is too
short for even the first cap/floor length, or the normalized switch-strike
vector does not have one entry per optionlet tenor. -/
def mkOptionletStripper (indexTenor maxCapFloorTenor : Nat) (switchStrikes : List ℚ)
    (nStrikes : Nat) : Option OptionletStripper :=
  let firstTenor := indexTenor
  let firstLength := firstTenor + indexTenor
  if maxCapFloorTenor ≥ firstLength then
    let grid := gridLoop indexTenor maxCapFloorTenor (maxCapFloorTenor + 1)
      [firstTenor] [firstLength]
    let n := grid.1.length
    let sw := normalizeSwitchStrikes switchStrikes n
    if n = sw.length then
      some ⟨grid.1, grid.2, n, sw, nStrikes, initCalcState⟩
    else none
  else none

/-- The optionlet-tenor ladder `τ, 2τ, …, nτ` (closed form of the list the
constructor builds). -/
def tenorLadder (τ n : Nat) : List Nat :=
  (List.range n).map (fun k => (k + 1) * τ)

/-- The cap/floor length ladder `2τ, 3τ, …, (n+1)τ` (closed form of the
list the constructor builds). -/
def lengthLadder (τ n : Nat) : List Nat :=
  (List.range n).map (fun k => (k + 2) * τ)

/-- Cell-failure diagnostic: the data streamed into the `QL_FAIL` message at
lines 133-140 of the source ("could not bootstrap the optionlet"). -/
structure Diagnostic where
  date : Nat
  optionType : OptionType
  strike : ℚ
  atm : ℚ
  price : ℚ
  annuity : ℚ
  msg : String
deriving DecidableEq, Repr

/-- The external collaborators consumed by `performCalculations`, as black
boxes.  Dates are abstract naturals. -/
structure MarketEnv where
  /-- Models `surface_->strikes()`. -/
  strikes : List ℚ
  /-- Models `surface_->volatility(length, strike, true)`, keyed by the cap/floor
  length and the strike. -/
  surfaceVol : Nat → ℚ → ℚ
  /-- Models `MakeCapFloor(Cap, length, …).lastFixingDate()`, keyed by the
  cap/floor length. -/
  lastFixingDate : Nat → Nat
  /-- Models `dc.yearFraction(referenceDate, date)`, keyed by the date. -/
  yearFraction : Nat → ℚ
  /-- Models `index_->forecastFixing(date)`. -/
  forecastFixing : Nat → ℚ
  /-- NPV of `MakeCapFloor(type, length, index_, strike, 0*Days,
  BlackCapFloorEngine(vol, dc))`, keyed by type, length, strike, vol. -/
  npv : CapFloorType → Nat → ℚ → ℚ → ℚ
  /-- Models `capfloors_[i][j]->discountCurve()->discount(date)`, keyed by the
  date (all instruments share the index's discounting curve). -/
  discount : Nat → ℚ
  /-- Models `blackFormulaImpliedStdDev(optionType, strike, forward, price,
  annuity, guess)`; `error` models the thrown exception. -/
  blackSolver : OptionType → ℚ → ℚ → ℚ → ℚ → ℚ → Except String ℚ
  /-- Models `std::sqrt`, as an abstract real function on the embedded rationals. -/
  sqrtQ : ℚ → ℚ

/-- The read `strikes[j]` (unchecked `operator[]`, defaulting like the embedding's
other list reads). -/
def strikeAt (env : MarketEnv) (j : Nat) : ℚ :=
  env.strikes.getD j 0

/-- The read `switchStrikes_[i]`. -/
def switchStrikeAt (s : OptionletStripper) (i : Nat) : ℚ :=
  s.switchStrikes.getD i 0

/-- The read `capfloorLengths_[i]`. -/
def capfloorLengthAt (s : OptionletStripper) (i : Nat) : Nat :=
  s.capfloorLengths.getD i 0

/-- Lines 104-105: `capFloorType = strikes[j] < switchStrikes_[i] ?
CapFloor::Floor : CapFloor::Cap`. -/
def cfType (env : MarketEnv) (s : OptionletStripper) (i j : Nat) : CapFloorType :=
  if strikeAt env j < switchStrikeAt s i then CapFloorType.Floor else CapFloorType.Cap

/-- Lines 106-107: `optionletType = capFloorType==CapFloor::Floor ?
Option::Put : Option::Call`. -/
def oType (env : MarketEnv) (s : OptionletStripper) (i j : Nat) : OptionType :=
  if cfType env s i j = CapFloorType.Floor then OptionType.Put else OptionType.Call

/-- Lines 109-111: `capfloorVols_[i][j] = surface_->volatility(...)`. -/
def cfVol (env : MarketEnv) (s : OptionletStripper) (i j : Nat) : ℚ :=
  env.surfaceVol (capfloorLengthAt s i) (strikeAt env j)

/-- Lines 112-117: the NPV of the cell's cap/floor instrument.  It depends
only on construction inputs, never on the mutable state, which is what
makes the closed forms below well-defined. -/
def cfPrice (env : MarketEnv) (s : OptionletStripper) (i j : Nat) : ℚ :=
  env.npv (cfType env s i j) (capfloorLengthAt s i) (strikeAt env j) (cfVol env s i j)

/-- The value `previousCapFloorPrice` holds when the inner loop reaches
period `i` in strike column `j`: `0` for `i = 0`, else the previous
period's cap/floor price. -/
def prevAt (env : MarketEnv) (s : OptionletStripper) (i j : Nat) : ℚ :=
  if i = 0 then 0 else cfPrice env s (i - 1) j

/-- Lines 118-119: the stripped optionlet price
`capfloorPrices_[i][j] - previousCapFloorPrice`. -/
def oPrice (env : MarketEnv) (s : OptionletStripper) (i j : Nat) : ℚ :=
  cfPrice env s i j - prevAt env s i j

/-- Line 90: `optionletDates_[i] = temp.lastFixingDate()` where `temp` is
the dummy cap of length `capfloorLengths_[i]`. -/
def optionletDates (env : MarketEnv) (s : OptionletStripper) (i : Nat) : Nat :=
  env.lastFixingDate (capfloorLengthAt s i)

/-- Line 91: `optionletAccrualPeriods_[i] = 0.5; //FIXME` — a hard-coded
constant, taking neither the index tenor nor any schedule data. -/
def optionletAccrualPeriods (i : Nat) : ℚ :=
  (0.5 : ℚ)

/-- Lines 92-93: `optionletTimes_[i] = dc.yearFraction(referenceDate,
optionletDates_[i])`. -/
def optionletTimes (env : MarketEnv) (s : OptionletStripper) (i : Nat) : ℚ :=
  env.yearFraction (optionletDates env s i)

/-- Line 94: `atmOptionletRate[i] = index_->forecastFixing(optionletDates_[i])`. -/
def atmOptionletRate (env : MarketEnv) (s : OptionletStripper) (i : Nat) : ℚ :=
  env.forecastFixing (optionletDates env s i)

/-- Lines 121-123: `optionletAnnuity = optionletAccrualPeriods_[i] * d`
with `d` the discount factor at `optionletDates_[i]`. -/
def optionletAnnuity (env : MarketEnv) (s : OptionletStripper) (i : Nat) : ℚ :=
  optionletAccrualPeriods i * env.discount (optionletDates env s i)

/-- The solver invocation of lines 125-131 for cell `(i, j)`, with the
warm-start guess read from the given state (in a pass this is the state at
the start of the pass, because cell `(i, j)` is written at most once per
pass and only at its own iteration). -/
def solveCell (env : MarketEnv) (s : OptionletStripper) (st : CalcState) (i j : Nat) :
    Except String ℚ :=
  env.blackSolver (oType env s i j) (strikeAt env j) (atmOptionletRate env s i)
    (oPrice env s i j) (optionletAnnuity env s i) (st.optionletStDevs i j)

/-- The standard deviation a cell holds after its iteration: the solver's
output on success, the prior (warm-start) value when the solver fails. -/
def solvedStDev (env : MarketEnv) (s : OptionletStripper) (st : CalcState) (i j : Nat) : ℚ :=
  match solveCell env s st i j with
  | Except.ok v => v
  | Except.error _ => st.optionletStDevs i j

/-- A `Bool`-valued success test for a cell's solver call. -/
def cellOk (env : MarketEnv) (s : OptionletStripper) (st : CalcState) (i j : Nat) : Bool :=
  match solveCell env s st i j with
  | Except.ok _ => true
  | Except.error _ => false

/-- The body of the inner loop (lines 102-145) for period `i`, strike
column `j`, running `previousCapFloorPrice = prev`: writes `capfloorVols`,
`capfloorPrices`, `optionletPrices`, then invokes the solver; on success it
also writes `optionletStDevs` and `optionletVols` and returns no
diagnostic, on failure (the `catch` block, line 132) it returns the
`QL_FAIL` diagnostic with the three already-written matrices kept.  The
second component is the updated `previousCapFloorPrice` (line 120, executed
before the `try`). -/
def calcCell (env : MarketEnv) (s : OptionletStripper) (st : CalcState) (j i : Nat)
    (prev : ℚ) : CalcState × ℚ × Option Diagnostic :=
  let strike := strikeAt env j
  let vol := cfVol env s i j
  let st1 : CalcState := { st with capfloorVols := mupd st.capfloorVols i j vol }
  let price := cfPrice env s i j
  let st2 : CalcState := { st1 with capfloorPrices := mupd st1.capfloorPrices i j price }
  let opx := price - prev
  let st3 : CalcState := { st2 with optionletPrices := mupd st2.optionletPrices i j opx }
  let d := env.discount (optionletDates env s i)
  let annuity := optionletAccrualPeriods i * d
  match env.blackSolver (oType env s i j) strike (atmOptionletRate env s i) opx annuity
      (st3.optionletStDevs i j) with
  | Except.error e =>
    (st3, price, some ⟨optionletDates env s i, oType env s i j, strike,
      atmOptionletRate env s i, opx, annuity, e⟩)
  | Except.ok sd =>
    let st4 : CalcState := { st3 with optionletStDevs := mupd st3.optionletStDevs i j sd }
    let vnew := sd / env.sqrtQ (optionletTimes env s i)
    let st5 : CalcState := { st4 with optionletVols := mupd st4.optionletVols i j vnew }
    (st5, price, none)

/-- The inner `for (i...)` loop of lines 102-145 starting at period `i`
with `k` iterations left; a `some` diagnostic aborts everything
(`QL_FAIL` throws out of both loops). -/
def stripRowFrom (env : MarketEnv) (s : OptionletStripper) (j : Nat) :
    Nat → Nat → CalcState → ℚ → CalcState × Option Diagnostic
  | 0, _, st, _ => (st, none)
  | Nat.succ k, i, st, prev =>
    match calcCell env s st j i prev with
    | (st', _, some d) => (st', some d)
    | (st', p, none) => stripRowFrom env s j k (i + 1) st' p

/-- The outer `for (j...)` loop of lines 100-146 starting at strike column
`j` with `k` columns left; each column restarts
`previousCapFloorPrice = 0.0` (line 101). -/
def stripColsFrom (env : MarketEnv) (s : OptionletStripper) :
    Nat → Nat → CalcState → CalcState × Option Diagnostic
  | 0, _, st => (st, none)
  | Nat.succ k, j, st =>
    match stripRowFrom env s j s.nOptionletTenors 0 st 0 with
    | (st', some d) => (st', some d)
    | (st', none) => stripColsFrom env s k (j + 1) st'

/-- Models `OptionletStripper::performCalculations` (lines 75-148) acting on the
mutable matrices `st`: all `nStrikes_ × nOptionletTenors_` cells in source
order, returning the final state and `some` diagnostic when the pass
aborted. -/
def performCalculations (env : MarketEnv) (s : OptionletStripper) (st : CalcState) :
    CalcState × Option Diagnostic :=
  stripColsFrom env s s.nStrikes 0 st

/-- The cells already fully processed when the pass is about to handle
period `c` of strike column `b` (columns are processed in increasing order,
periods within a column in increasing order): row `i < n` and either an
earlier column, or the current column at an earlier period. -/
def cellDone (n b c i j : Nat) : Prop :=
  i < n ∧ (j < b ∨ (j = b ∧ i < c))

instance cellDoneDecidable (n b c i j : Nat) : Decidable (cellDone n b c i j) := by
  unfold cellDone
  infer_instance

/-- The state of the matrices when the pass, started from `st0`, is about
to handle period `c` of strike column `b`: processed cells hold their
closed-form values, unprocessed cells still hold the `st0` values. -/
def midState (env : MarketEnv) (s : OptionletStripper) (st0 : CalcState) (b c : Nat) :
    CalcState :=
  { capfloorPrices := fun i j =>
      if cellDone s.nOptionletTenors b c i j then cfPrice env s i j
      else st0.capfloorPrices i j
    optionletPrices := fun i j =>
      if cellDone s.nOptionletTenors b c i j then oPrice env s i j
      else st0.optionletPrices i j
    capfloorVols := fun i j =>
      if cellDone s.nOptionletTenors b c i j then cfVol env s i j
      else st0.capfloorVols i j
    optionletVols := fun i j =>
      if cellDone s.nOptionletTenors b c i j then
        solvedStDev env s st0 i j / env.sqrtQ (optionletTimes env s i)
      else st0.optionletVols i j
    optionletStDevs := fun i j =>
      if cellDone s.nOptionletTenors b c i j then solvedStDev env s st0 i j
      else st0.optionletStDevs i j }

/-- The state of the matrices after the pass aborts at cell `(f, b)`
(period `f`, strike column `b`): all earlier cells are complete, the
failing cell has its market vol, cap/floor price and optionlet price
written (they precede the `try` block) but keeps its standard deviation and
annualized vol, later cells are untouched. -/
def failCellState (env : MarketEnv) (s : OptionletStripper) (st0 : CalcState) (b f : Nat) :
    CalcState :=
  { capfloorPrices := fun i j =>
      if cellDone s.nOptionletTenors b (f + 1) i j then cfPrice env s i j
      else st0.capfloorPrices i j
    optionletPrices := fun i j =>
      if cellDone s.nOptionletTenors b (f + 1) i j then oPrice env s i j
      else st0.optionletPrices i j
    capfloorVols := fun i j =>
      if cellDone s.nOptionletTenors b (f + 1) i j then cfVol env s i j
      else st0.capfloorVols i j
    optionletVols := fun i j =>
      if cellDone s.nOptionletTenors b f i j then
        solvedStDev env s st0 i j / env.sqrtQ (optionletTimes env s i)
      else st0.optionletVols i j
    optionletStDevs := fun i j =>
      if cellDone s.nOptionletTenors b f i j then solvedStDev env s st0 i j
      else st0.optionletStDevs i j }

/-- The diagnostic `QL_FAIL` reports when the solver fails at cell
`(f, b)` with message `e`. -/
def diagAt (env : MarketEnv) (s : OptionletStripper) (f b : Nat) (e : String) : Diagnostic :=
  ⟨optionletDates env s f, oType env s f b, strikeAt env b, atmOptionletRate env s f,
    oPrice env s f b, optionletAnnuity env s f, e⟩

/-- A concretely constructed stripper: index tenor three months, surface
maximum maturity two years (24 months), default switch strikes, one
strike column. -/
def sampleStripper : OptionletStripper :=
  (mkOptionletStripper 3 24 [] 1).getD default

/-- A concrete market environment whose solver always succeeds, used to
exercise the successful-pass theorems on `sampleStripper`. -/
def sampleEnv : MarketEnv :=
  { strikes := [(0.03 : ℚ)]
    surfaceVol := fun _ _ => (0.2 : ℚ)
    lastFixingDate := fun l => l
    yearFraction := fun d => (d : ℚ) / 12
    forecastFixing := fun _ => (0.05 : ℚ)
    npv := fun _ l _ _ => (l : ℚ) / 100
    discount := fun _ => (0.9 : ℚ)
    blackSolver := fun _ _ _ _ _ g => Except.ok (g + (0.1 : ℚ))
    sqrtQ := fun x => x }

/-- Environment `sampleEnv` with a solver that always fails: the first processed cell
(period 0, strike column 0) aborts the pass. -/
def sampleFailEnv : MarketEnv :=
  { sampleEnv with blackSolver := fun _ _ _ _ _ _ => Except.error "no solution" }

/-- Environment `sampleEnv` with a solver that fails on every cell except the very
first one (whose stripped price is `6/100`): the pass completes cell
(period 0, column 0) and aborts at cell (period 1, column 0). -/
def samplePartialEnv : MarketEnv :=
  { sampleEnv with blackSolver := fun _ _ _ p _ g =>
      if p = (6 : ℚ)/100 then Except.ok (g + (0.1 : ℚ)) else Except.error "price out of bounds" }

theorem getLastD_snoc (xs : List Nat) (a : Nat) : (xs ++ [a]).getLastD 0 = a := by
  simp

theorem tenorLadder_succ (τ n : Nat) :
    tenorLadder τ (n + 1) = tenorLadder τ n ++ [(n + 1) * τ] := by
  simp [tenorLadder, List.range_succ]

theorem lengthLadder_succ (τ n : Nat) :
    lengthLadder τ (n + 1) = lengthLadder τ n ++ [(n + 2) * τ] := by
  simp [lengthLadder, List.range_succ]

theorem tenorLadder_getLastD (τ n : Nat) (h : 1 ≤ n) :
    (tenorLadder τ n).getLastD 0 = n * τ := by
  cases n with
  | zero => omega
  | succ m => rw [tenorLadder_succ, getLastD_snoc]

theorem lengthLadder_getLastD (τ n : Nat) (h : 1 ≤ n) :
    (lengthLadder τ n).getLastD 0 = (n + 1) * τ := by
  cases n with
  | zero => omega
  | succ m => rw [lengthLadder_succ, getLastD_snoc]

theorem gridLoop_ladder (τ Tmax : Nat) :
    ∀ fuel n, 1 ≤ n → (n + 1) * τ ≤ Tmax →
      ∃ m, n ≤ m ∧
        gridLoop τ Tmax fuel (tenorLadder τ n) (lengthLadder τ n) =
          (tenorLadder τ m, lengthLadder τ m) ∧ (m + 1) * τ ≤ Tmax := by
  intro fuel
  induction fuel with
  | zero =>
    intro n hn hb
    exact ⟨n, le_refl n, rfl, hb⟩
  | succ fuel ih =>
    intro n hn hb
    rw [gridLoop]
    rw [lengthLadder_getLastD τ n hn, tenorLadder_getLastD τ n hn]
    by_cases hcond : (n + 1) * τ + τ ≤ Tmax
    · rw [if_pos hcond]
      have h1 : n * τ + τ = (n + 1) * τ := by ring
      rw [h1]
      have h2 : (n + 1) * τ + τ = (n + 2) * τ := by ring
      rw [h2, ← tenorLadder_succ, ← lengthLadder_succ]
      have hb' : (n + 1 + 1) * τ ≤ Tmax := by
        have : (n + 1 + 1) * τ = (n + 1) * τ + τ := by ring
        omega
      obtain ⟨m, hm, heq, hmb⟩ := ih (n + 1) (by omega) hb'
      exact ⟨m, by omega, heq, hmb⟩
    · rw [if_neg hcond]
      exact ⟨n, le_refl n, rfl, hb⟩

theorem tenorLadder_length (τ n : Nat) : (tenorLadder τ n).length = n := by
  simp [tenorLadder]

theorem lengthLadder_length (τ n : Nat) : (lengthLadder τ n).length = n := by
  simp [lengthLadder]

theorem tenorLadder_one (τ : Nat) : tenorLadder τ 1 = [τ] := by
  simp [tenorLadder, List.range_succ]

theorem lengthLadder_one (τ : Nat) : lengthLadder τ 1 = [τ + τ] := by
  simp [lengthLadder, List.range_succ]
  omega

theorem mk_spec (τ T ns : Nat) (sw : List ℚ) (s : OptionletStripper)
    (hs : mkOptionletStripper τ T sw ns = some s) :
    τ + τ ≤ T ∧
    ∃ m, 1 ≤ m ∧
      gridLoop τ T (T + 1) [τ] [τ + τ] = (tenorLadder τ m, lengthLadder τ m) ∧
      s.optionletTenors = tenorLadder τ m ∧
      s.capfloorLengths = lengthLadder τ m ∧ s.nOptionletTenors = m ∧
      (m + 1) * τ ≤ T ∧ m = (normalizeSwitchStrikes sw m).length ∧
      s.switchStrikes = normalizeSwitchStrikes sw m ∧
      s.nStrikes = ns ∧ s.initState = initCalcState := by
  unfold mkOptionletStripper at hs
  by_cases hT : T ≥ τ + τ
  · rw [if_pos hT] at hs
    refine ⟨hT, ?_⟩
    have hinit : (1 + 1) * τ ≤ T := by
      have : (1 + 1) * τ = τ + τ := by ring
      omega
    obtain ⟨m, hm, heq, hmb⟩ := gridLoop_ladder τ T (T + 1) 1 (le_refl 1) hinit
    rw [tenorLadder_one, lengthLadder_one] at heq
    rw [heq] at hs
    simp only [tenorLadder_length] at hs
    by_cases hsw : m = (normalizeSwitchStrikes sw m).length
    · rw [if_pos hsw] at hs
      refine ⟨m, hm, heq, ?_⟩
      obtain rfl := Option.some.inj hs
      exact ⟨rfl, rfl, rfl, hmb, hsw, rfl, rfl, rfl⟩
    · rw [if_neg hsw] at hs
      exact absurd hs (by simp)
  · rw [if_neg hT] at hs
    exact absurd hs (by simp)

theorem lengthLadder_getD (τ m i : Nat) (h : i < m) :
    (lengthLadder τ m).getD i 0 = (i + 2) * τ := by
  simp [lengthLadder, List.getD, List.getElem?_map, List.getElem?_range, h]

theorem tenorLadder_getD (τ m i : Nat) (h : i < m) :
    (tenorLadder τ m).getD i 0 = (i + 1) * τ := by
  simp [tenorLadder, List.getD, List.getElem?_map, List.getElem?_range, h]

theorem normalizeSwitchStrikes_id (sw : List ℚ) (n : Nat) (h1 : sw.length ≠ 1)
    (h0 : sw ≠ []) : normalizeSwitchStrikes sw n = sw := by
  unfold normalizeSwitchStrikes
  rw [if_neg h1, if_neg h0]

/-- C1: the claim `capfloorLengths[i] == (i+1) * indexTenor` (0-based `i`)
fails already at `i = 0` for index tenor 3 months, surface maximum 24
months: the first cumulative length is 6 months, not 3. -/
theorem claim_C1_counterexample :
    (mkOptionletStripper 3 24 [] 1).map (fun s => s.capfloorLengths.getD 0 0) = some 6 ∧
      (6 : Nat) ≠ (0 + 1) * 3 := by
  refine ⟨by decide, by decide⟩

/-- C1 (amended): for every valid construction, the cumulative cap/floor
maturity for 0-based period `i` is `(i+2) * indexTenor` (the claimed
`(i+1) * indexTenor` is the optionlet tenor, not the cap/floor length). -/
theorem claim_C1_amended (τ T ns i : Nat) (sw : List ℚ) (s : OptionletStripper)
    (hτ : 1 ≤ τ) (hs : mkOptionletStripper τ T sw ns = some s)
    (hi : i < s.nOptionletTenors) :
    s.capfloorLengths.getD i 0 = (i + 2) * τ := by
  obtain ⟨hT, m, hm, hgrid, hten, hlen, hn, hmb, hrest⟩ := mk_spec τ T ns sw s hs
  rw [hlen]
  exact lengthLadder_getD τ m i (hn ▸ hi)

theorem claim_C1_witness :
    1 ≤ 3 ∧ sampleStripper.capfloorLengths.getD 0 0 = (0 + 2) * 3 :=
  ⟨by decide, claim_C1_amended 3 24 1 0 [] sampleStripper (by decide) rfl (by decide)⟩

/-- C2: adjacent cumulative maturities differ by exactly the index tenor
(hence increase strictly), every cumulative maturity (including the first)
is at most the surface's maximum maturity, and construction fails whenever
the very first length `indexTenor + indexTenor` exceeds that maximum. -/
theorem claim_C2_ladder_invariants (τ T T2 ns i : Nat) (sw : List ℚ)
    (s : OptionletStripper) (hτ : 1 ≤ τ)
    (hs : mkOptionletStripper τ T sw ns = some s) (h1 : 1 ≤ i)
    (hi : i < s.nOptionletTenors) (hT2 : T2 < τ + τ) :
    s.capfloorLengths.getD i 0 = s.capfloorLengths.getD (i - 1) 0 + τ ∧
      s.capfloorLengths.getD (i - 1) 0 < s.capfloorLengths.getD i 0 ∧
      s.capfloorLengths.getD i 0 ≤ T ∧
      s.capfloorLengths.getD 0 0 ≤ T ∧
      mkOptionletStripper τ T2 sw ns = none := by
  obtain ⟨hT, m, hm, hgrid, hten, hlen, hn, hmb, hrest⟩ := mk_spec τ T ns sw s hs
  rw [hn] at hi
  rw [hlen, lengthLadder_getD τ m i hi, lengthLadder_getD τ m (i - 1) (by omega),
    lengthLadder_getD τ m 0 (by omega)]
  have hstep : (i + 2) * τ = (i - 1 + 2) * τ + τ := by
    have : i - 1 + 1 = i := by omega
    calc (i + 2) * τ = ((i - 1) + 3) * τ := by rw [show i + 2 = (i - 1) + 3 by omega]
    _ = (i - 1 + 2) * τ + τ := by ring
  have hmono : (i - 1 + 2) * τ < (i + 2) * τ := by omega
  have hbound : (i + 2) * τ ≤ T := by
    have : (i + 2) * τ ≤ (m + 1) * τ := Nat.mul_le_mul_right τ (by omega)
    omega
  have hfirst : (0 + 2) * τ ≤ T := by
    have : (0 + 2) * τ ≤ (m + 1) * τ := Nat.mul_le_mul_right τ (by omega)
    omega
  refine ⟨hstep, hmono, hbound, hfirst, ?_⟩
  unfold mkOptionletStripper
  rw [if_neg (by omega)]

theorem claim_C2_witness :
    sampleStripper.capfloorLengths.getD 1 0 = sampleStripper.capfloorLengths.getD 0 0 + 3 ∧
      sampleStripper.capfloorLengths.getD 0 0 < sampleStripper.capfloorLengths.getD 1 0 ∧
      sampleStripper.capfloorLengths.getD 1 0 ≤ 24 ∧
      sampleStripper.capfloorLengths.getD 0 0 ≤ 24 ∧
      mkOptionletStripper 3 5 [] 1 = none :=
  claim_C2_ladder_invariants 3 24 5 1 1 [] sampleStripper (by decide) rfl (by decide)
    (by decide) (by decide)

/-- C3: with a 3-month index tenor and a 24-month (2-year) maximum surface
maturity the constructor builds exactly 7 optionlet periods 3M,…,21M with
cumulative cap/floor lengths 6M,…,24M — and no 8th period. -/
theorem claim_C3_grid_3M_2Y :
    (mkOptionletStripper 3 24 [] 1).map
        (fun s => (s.nOptionletTenors, s.optionletTenors, s.capfloorLengths)) =
      some (7, [3, 6, 9, 12, 15, 18, 21], [6, 9, 12, 15, 18, 21, 24]) := by
  decide

/-- C7: post-normalization the switch-strike vector always has one entry
per optionlet period; a single supplied strike is broadcast, an empty
supplied vector defaults every period to 0.04, and for any other supplied
vector construction succeeds exactly when its length equals the number of
optionlet periods. -/
theorem claim_C7_switchStrikes (τ T ns : Nat) (sw sw2 : List ℚ) (s : OptionletStripper)
    (hs : mkOptionletStripper τ T sw ns = some s)
    (h1 : sw2.length ≠ 1) (h0 : sw2 ≠ []) :
    s.switchStrikes.length = s.nOptionletTenors ∧
      s.switchStrikes =
        (if sw.length = 1 then List.replicate s.nOptionletTenors (sw.getD 0 0)
         else if sw = [] then List.replicate s.nOptionletTenors (0.04 : ℚ)
         else sw) ∧
      ((mkOptionletStripper τ T sw2 ns).isSome ↔ sw2.length = s.nOptionletTenors) := by
  obtain ⟨hT, m, hm, hgrid, hten, hlen, hn, hmb, hswlen, hsw, hns, hinit⟩ :=
    mk_spec τ T ns sw s hs
  have hlen1 : s.switchStrikes.length = s.nOptionletTenors := by
    rw [hsw, hn, ← hswlen]
  refine ⟨hlen1, ?_, ?_⟩
  · rw [hsw, hn]
    unfold normalizeSwitchStrikes
    by_cases hc1 : sw.length = 1
    · rw [if_pos hc1]
      have : sw ≠ [] := by
        intro hemp
        rw [hemp] at hc1
        simp at hc1
      rw [if_neg this, if_pos hc1]
    · rw [if_neg hc1, if_neg hc1]
  · unfold mkOptionletStripper
    rw [if_pos hT, hgrid]
    simp only [tenorLadder_length]
    rw [normalizeSwitchStrikes_id sw2 m h1 h0]
    constructor
    · intro hsome
      by_cases hc : m = sw2.length
      · rw [hn]
        omega
      · rw [if_neg hc] at hsome
        simp at hsome
    · intro hlen2
      rw [hn] at hlen2
      rw [if_pos (by omega)]
      simp

theorem cellDone_not_self (n b c : Nat) : ¬ cellDone n b c c b := by
  unfold cellDone
  omega

theorem cellDone_succ_self (n b c : Nat) (hc : c < n) : cellDone n b (c + 1) c b := by
  unfold cellDone
  omega

theorem cellDone_succ_other (n b c a d : Nat) (h : ¬(a = c ∧ d = b)) :
    cellDone n b (c + 1) a d ↔ cellDone n b c a d := by
  unfold cellDone
  omega

theorem mupd_guard (P Q : Nat → Nat → Prop) [ip : ∀ i j, Decidable (P i j)]
    [iq : ∀ i j, Decidable (Q i j)] (f g : Nat → Nat → ℚ) (c b : Nat) (v : ℚ)
    (hq : Q c b) (hv : v = f c b)
    (hpq : ∀ a d, ¬(a = c ∧ d = b) → (P a d ↔ Q a d)) :
    mupd (fun i j => if P i j then f i j else g i j) c b v =
      (fun i j => if Q i j then f i j else g i j) := by
  funext a d
  unfold mupd
  by_cases h : a = c ∧ d = b
  · obtain ⟨rfl, rfl⟩ := h
    rw [if_pos ⟨rfl, rfl⟩, if_pos hq, hv]
  · rw [if_neg h]
    show (if P a d then f a d else g a d) = if Q a d then f a d else g a d
    rw [if_congr (hpq a d h) rfl rfl]

theorem calcCell_ok (env : MarketEnv) (s : OptionletStripper) (st0 : CalcState)
    (b c : Nat) (v : ℚ) (hc : c < s.nOptionletTenors)
    (hok : solveCell env s st0 c b = Except.ok v) :
    calcCell env s (midState env s st0 b c) b c (prevAt env s c b) =
      (midState env s st0 b (c + 1), cfPrice env s c b, none) := by
  have hguess : (midState env s st0 b c).optionletStDevs c b = st0.optionletStDevs c b := by
    simp only [midState]
    rw [if_neg (cellDone_not_self s.nOptionletTenors b c)]
  have hok' : env.blackSolver (oType env s c b) (strikeAt env b) (atmOptionletRate env s c)
      (cfPrice env s c b - prevAt env s c b)
      (optionletAccrualPeriods c * env.discount (optionletDates env s c))
      ((midState env s st0 b c).optionletStDevs c b) = Except.ok v := by
    rw [hguess]
    exact hok
  have hsd : solvedStDev env s st0 c b = v := by
    unfold solvedStDev
    rw [hok]
  simp only [calcCell]
  rw [hok']
  simp only [Prod.mk.injEq]
  refine ⟨?_, trivial⟩
  simp only [midState]
  refine CalcState.ext ?_ ?_ ?_ ?_ ?_
  · exact mupd_guard _ _ _ _ c b _ (cellDone_succ_self s.nOptionletTenors b c hc) rfl
      (fun a d h => (cellDone_succ_other s.nOptionletTenors b c a d h).symm)
  · exact mupd_guard _ _ _ _ c b _ (cellDone_succ_self s.nOptionletTenors b c hc) rfl
      (fun a d h => (cellDone_succ_other s.nOptionletTenors b c a d h).symm)
  · exact mupd_guard _ _ _ _ c b _ (cellDone_succ_self s.nOptionletTenors b c hc) rfl
      (fun a d h => (cellDone_succ_other s.nOptionletTenors b c a d h).symm)
  · exact mupd_guard _ _ _ _ c b _ (cellDone_succ_self s.nOptionletTenors b c hc)
      (by rw [hsd]) (fun a d h => (cellDone_succ_other s.nOptionletTenors b c a d h).symm)
  · exact mupd_guard _ _ _ _ c b _ (cellDone_succ_self s.nOptionletTenors b c hc)
      (by rw [hsd]) (fun a d h => (cellDone_succ_other s.nOptionletTenors b c a d h).symm)

theorem calcCell_fail (env : MarketEnv) (s : OptionletStripper) (st0 : CalcState)
    (b f : Nat) (e : String) (hf : f < s.nOptionletTenors)
    (herr : solveCell env s st0 f b = Except.error e) :
    calcCell env s (midState env s st0 b f) b f (prevAt env s f b) =
      (failCellState env s st0 b f, cfPrice env s f b, some (diagAt env s f b e)) := by
  have hguess : (midState env s st0 b f).optionletStDevs f b = st0.optionletStDevs f b := by
    simp only [midState]
    rw [if_neg (cellDone_not_self s.nOptionletTenors b f)]
  have herr' : env.blackSolver (oType env s f b) (strikeAt env b) (atmOptionletRate env s f)
      (cfPrice env s f b - prevAt env s f b)
      (optionletAccrualPeriods f * env.discount (optionletDates env s f))
      ((midState env s st0 b f).optionletStDevs f b) = Except.error e := by
    rw [hguess]
    exact herr
  simp only [calcCell]
  rw [herr']
  simp only [Prod.mk.injEq]
  refine ⟨?_, trivial, rfl⟩
  simp only [midState, failCellState]
  refine CalcState.ext ?_ ?_ ?_ rfl rfl
  · exact mupd_guard _ _ _ _ f b _ (cellDone_succ_self s.nOptionletTenors b f hf) rfl
      (fun a d h => (cellDone_succ_other s.nOptionletTenors b f a d h).symm)
  · exact mupd_guard _ _ _ _ f b _ (cellDone_succ_self s.nOptionletTenors b f hf) rfl
      (fun a d h => (cellDone_succ_other s.nOptionletTenors b f a d h).symm)
  · exact mupd_guard _ _ _ _ f b _ (cellDone_succ_self s.nOptionletTenors b f hf) rfl
      (fun a d h => (cellDone_succ_other s.nOptionletTenors b f a d h).symm)

theorem prevAt_zero (env : MarketEnv) (s : OptionletStripper) (b : Nat) :
    prevAt env s 0 b = 0 := rfl

theorem prevAt_succ (env : MarketEnv) (s : OptionletStripper) (c b : Nat) :
    prevAt env s (c + 1) b = cfPrice env s c b := by
  unfold prevAt
  simp

theorem cellOk_ok (env : MarketEnv) (s : OptionletStripper) (st0 : CalcState) (i j : Nat)
    (h : cellOk env s st0 i j = true) : ∃ v, solveCell env s st0 i j = Except.ok v := by
  unfold cellOk at h
  cases hsc : solveCell env s st0 i j with
  | ok v => exact ⟨v, rfl⟩
  | error e =>
    rw [hsc] at h
    simp at h

theorem stripRowFrom_ok (env : MarketEnv) (s : OptionletStripper) (st0 : CalcState) (b : Nat) :
    ∀ k c, c + k ≤ s.nOptionletTenors →
      (∀ i, c ≤ i → i < c + k → cellOk env s st0 i b = true) →
      stripRowFrom env s b k c (midState env s st0 b c) (prevAt env s c b) =
        (midState env s st0 b (c + k), none) := by
  intro k
  induction k with
  | zero =>
    intro c hc hok
    rfl
  | succ k ih =>
    intro c hc hok
    obtain ⟨v, hv⟩ := cellOk_ok env s st0 c b (hok c (le_refl c) (by omega))
    rw [stripRowFrom, calcCell_ok env s st0 b c v (by omega) hv]
    have hrec := ih (c + 1) (by omega) (fun i h1 h2 => hok i (by omega) (by omega))
    rw [prevAt_succ] at hrec
    have hstep : c + 1 + k = c + (k + 1) := by omega
    rw [hstep] at hrec
    exact hrec

theorem stripRowFrom_fail (env : MarketEnv) (s : OptionletStripper) (st0 : CalcState)
    (b : Nat) (e : String) :
    ∀ k c f, c ≤ f → f < c + k → c + k ≤ s.nOptionletTenors →
      (∀ i, c ≤ i → i < f → cellOk env s st0 i b = true) →
      solveCell env s st0 f b = Except.error e →
      stripRowFrom env s b k c (midState env s st0 b c) (prevAt env s c b) =
        (failCellState env s st0 b f, some (diagAt env s f b e)) := by
  intro k
  induction k with
  | zero =>
    intro c f h1 h2
    omega
  | succ k ih =>
    intro c f h1 h2 hc hok herr
    by_cases hcf : c = f
    · subst hcf
      rw [stripRowFrom, calcCell_fail env s st0 b c e (by omega) herr]
    · obtain ⟨v, hv⟩ := cellOk_ok env s st0 c b (hok c (le_refl c) (by omega))
      rw [stripRowFrom, calcCell_ok env s st0 b c v (by omega) hv]
      have hrec := ih (c + 1) f (by omega) (by omega) (by omega)
        (fun i ha hb => hok i (by omega) hb) herr
      rw [prevAt_succ] at hrec
      exact hrec

theorem guard_congr (P Q : Nat → Nat → Prop) [ip : ∀ i j, Decidable (P i j)]
    [iq : ∀ i j, Decidable (Q i j)] (f g : Nat → Nat → ℚ)
    (h : ∀ i j, P i j ↔ Q i j) :
    (fun i j => if P i j then f i j else g i j) =
      (fun i j => if Q i j then f i j else g i j) := by
  funext i j
  rw [if_congr (h i j) rfl rfl]

theorem cellDone_col_wrap (n b i j : Nat) : cellDone n b n i j ↔ cellDone n (b + 1) 0 i j := by
  unfold cellDone
  omega

theorem midState_col_wrap (env : MarketEnv) (s : OptionletStripper) (st0 : CalcState)
    (b : Nat) :
    midState env s st0 b s.nOptionletTenors = midState env s st0 (b + 1) 0 := by
  simp only [midState]
  refine CalcState.ext ?_ ?_ ?_ ?_ ?_ <;>
    exact guard_congr _ _ _ _ (fun i j => cellDone_col_wrap s.nOptionletTenors b i j)

theorem cellDone_start (n i j : Nat) : ¬ cellDone n 0 0 i j := by
  unfold cellDone
  omega

theorem midState_start (env : MarketEnv) (s : OptionletStripper) (st0 : CalcState) :
    midState env s st0 0 0 = st0 := by
  simp only [midState]
  refine CalcState.ext ?_ ?_ ?_ ?_ ?_ <;>
    · funext i j
      exact if_neg (cellDone_start s.nOptionletTenors i j)

theorem stripColsFrom_ok (env : MarketEnv) (s : OptionletStripper) (st0 : CalcState) :
    ∀ k b, (∀ i j, i < s.nOptionletTenors → b ≤ j → j < b + k →
        cellOk env s st0 i j = true) →
      stripColsFrom env s k b (midState env s st0 b 0) =
        (midState env s st0 (b + k) 0, none) := by
  intro k
  induction k with
  | zero =>
    intro b hok
    rfl
  | succ k ih =>
    intro b hok
    have h0 : (0 : Nat) + s.nOptionletTenors = s.nOptionletTenors := by omega
    have hrow := stripRowFrom_ok env s st0 b s.nOptionletTenors 0 (by omega)
      (fun i h1 h2 => hok i b (by omega) (le_refl b) (by omega))
    rw [prevAt_zero, h0, midState_col_wrap] at hrow
    rw [stripColsFrom, hrow]
    have hrec := ih (b + 1) (fun i j hi h1 h2 => hok i j hi (by omega) (by omega))
    have hstep : b + 1 + k = b + (k + 1) := by omega
    rw [hstep] at hrec
    exact hrec

theorem stripColsFrom_fail (env : MarketEnv) (s : OptionletStripper) (st0 : CalcState)
    (e : String) :
    ∀ k b bf f, b ≤ bf → bf < b + k → f < s.nOptionletTenors →
      (∀ i j, i < s.nOptionletTenors → b ≤ j → j < bf → cellOk env s st0 i j = true) →
      (∀ i, i < f → cellOk env s st0 i bf = true) →
      solveCell env s st0 f bf = Except.error e →
      stripColsFrom env s k b (midState env s st0 b 0) =
        (failCellState env s st0 bf f, some (diagAt env s f bf e)) := by
  intro k
  induction k with
  | zero =>
    intro b bf f h1 h2
    omega
  | succ k ih =>
    intro b bf f h1 h2 hf hcols hrows herr
    by_cases hbbf : b = bf
    · subst hbbf
      have hrow := stripRowFrom_fail env s st0 b e s.nOptionletTenors 0 f (by omega)
        (by omega) (by omega) (fun i ha hb => hrows i hb) herr
      rw [prevAt_zero] at hrow
      rw [stripColsFrom, hrow]
    · have h0 : (0 : Nat) + s.nOptionletTenors = s.nOptionletTenors := by omega
      have hrow := stripRowFrom_ok env s st0 b s.nOptionletTenors 0 (by omega)
        (fun i ha hb => hcols i b (by omega) (le_refl b) (by omega))
      rw [prevAt_zero, h0, midState_col_wrap] at hrow
      rw [stripColsFrom, hrow]
      exact ih (b + 1) bf f (by omega) (by omega) hf
        (fun i j hi ha hb => hcols i j hi (by omega) hb) hrows herr

theorem performCalculations_ok (env : MarketEnv) (s : OptionletStripper) (st0 : CalcState)
    (h : ∀ i j, i < s.nOptionletTenors → j < s.nStrikes → cellOk env s st0 i j = true) :
    performCalculations env s st0 = (midState env s st0 s.nStrikes 0, none) := by
  unfold performCalculations
  conv_lhs => rw [← midState_start env s st0]
  have := stripColsFrom_ok env s st0 s.nStrikes 0
    (fun i j hi h1 h2 => h i j hi (by omega))
  rw [this]
  have h0 : (0 : Nat) + s.nStrikes = s.nStrikes := by omega
  rw [h0]

theorem performCalculations_fail (env : MarketEnv) (s : OptionletStripper) (st0 : CalcState)
    (bf f : Nat) (e : String) (hbf : bf < s.nStrikes) (hf : f < s.nOptionletTenors)
    (hcols : ∀ i j, i < s.nOptionletTenors → j < bf → cellOk env s st0 i j = true)
    (hrows : ∀ i, i < f → cellOk env s st0 i bf = true)
    (herr : solveCell env s st0 f bf = Except.error e) :
    performCalculations env s st0 =
      (failCellState env s st0 bf f, some (diagAt env s f bf e)) := by
  unfold performCalculations
  conv_lhs => rw [← midState_start env s st0]
  exact stripColsFrom_fail env s st0 e s.nStrikes 0 bf f (by omega) (by omega) hf
    (fun i j hi h1 h2 => hcols i j hi h2) hrows herr

theorem cellDone_final (n m i j : Nat) (hi : i < n) (hj : j < m) : cellDone n m 0 i j := by
  unfold cellDone
  omega

theorem midState_eval_capfloorPrices (env : MarketEnv) (s : OptionletStripper)
    (st0 : CalcState) (i j : Nat) (hi : i < s.nOptionletTenors) (hj : j < s.nStrikes) :
    (midState env s st0 s.nStrikes 0).capfloorPrices i j = cfPrice env s i j := by
  simp only [midState]
  rw [if_pos (cellDone_final s.nOptionletTenors s.nStrikes i j hi hj)]

theorem midState_eval_optionletPrices (env : MarketEnv) (s : OptionletStripper)
    (st0 : CalcState) (i j : Nat) (hi : i < s.nOptionletTenors) (hj : j < s.nStrikes) :
    (midState env s st0 s.nStrikes 0).optionletPrices i j = oPrice env s i j := by
  simp only [midState]
  rw [if_pos (cellDone_final s.nOptionletTenors s.nStrikes i j hi hj)]

theorem midState_eval_optionletVols (env : MarketEnv) (s : OptionletStripper)
    (st0 : CalcState) (i j : Nat) (hi : i < s.nOptionletTenors) (hj : j < s.nStrikes) :
    (midState env s st0 s.nStrikes 0).optionletVols i j =
      solvedStDev env s st0 i j / env.sqrtQ (optionletTimes env s i) := by
  simp only [midState]
  rw [if_pos (cellDone_final s.nOptionletTenors s.nStrikes i j hi hj)]

theorem midState_eval_optionletStDevs (env : MarketEnv) (s : OptionletStripper)
    (st0 : CalcState) (i j : Nat) (hi : i < s.nOptionletTenors) (hj : j < s.nStrikes) :
    (midState env s st0 s.nStrikes 0).optionletStDevs i j = solvedStDev env s st0 i j := by
  simp only [midState]
  rw [if_pos (cellDone_final s.nOptionletTenors s.nStrikes i j hi hj)]

theorem oPrice_sum (env : MarketEnv) (s : OptionletStripper) (j : Nat) :
    ∀ i, (∑ k ∈ Finset.range (i + 1), oPrice env s k j) = cfPrice env s i j := by
  intro i
  induction i with
  | zero =>
    rw [Finset.sum_range_one]
    unfold oPrice prevAt
    simp
  | succ i ih =>
    rw [Finset.sum_range_succ, ih]
    unfold oPrice prevAt
    simp

/-- C4: per cell the stripping instrument is a `Floor` exactly when the
strike lies below the period's switch strike (`Cap` otherwise), and the
isolated optionlet is priced as a `Put` exactly for `Floor` and as a
`Call` exactly for `Cap`. -/
theorem claim_C4_otm_side (env : MarketEnv) (s : OptionletStripper) (i j : Nat) :
    (cfType env s i j = CapFloorType.Floor ↔ strikeAt env j < switchStrikeAt s i) ∧
      (oType env s i j = OptionType.Put ↔ cfType env s i j = CapFloorType.Floor) ∧
      (oType env s i j = OptionType.Call ↔ cfType env s i j = CapFloorType.Cap) := by
  unfold oType cfType
  by_cases h : strikeAt env j < switchStrikeAt s i <;> simp [h]

/-- C5: after a successful pass, each optionlet price is the difference of
the cell's cap/floor price and the previous period's cap/floor price (zero
for the first period), and partial sums of optionlet prices reconstruct
the cap/floor price grid. -/
theorem claim_C5_differencing (env : MarketEnv) (s : OptionletStripper) (st0 : CalcState)
    (hok : ∀ i, i < s.nOptionletTenors → ∀ j, j < s.nStrikes →
      cellOk env s st0 i j = true)
    (i j : Nat) (hi : i < s.nOptionletTenors) (hj : j < s.nStrikes) :
    (performCalculations env s st0).1.optionletPrices i j =
      (performCalculations env s st0).1.capfloorPrices i j -
        (if i = 0 then 0 else (performCalculations env s st0).1.capfloorPrices (i - 1) j) ∧
      (∑ k ∈ Finset.range (i + 1), (performCalculations env s st0).1.optionletPrices k j) =
        (performCalculations env s st0).1.capfloorPrices i j := by
  rw [performCalculations_ok env s st0 (fun a b ha hb => hok a ha b hb)]
  constructor
  · rw [midState_eval_optionletPrices env s st0 i j hi hj,
      midState_eval_capfloorPrices env s st0 i j hi hj]
    by_cases h0 : i = 0
    · subst h0
      rw [if_pos rfl]
      unfold oPrice prevAt
      simp
    · rw [if_neg h0, midState_eval_capfloorPrices env s st0 (i - 1) j (by omega) hj]
      unfold oPrice prevAt
      rw [if_neg h0]
  · have hsum : (∑ k ∈ Finset.range (i + 1),
        (midState env s st0 s.nStrikes 0).optionletPrices k j) =
        (∑ k ∈ Finset.range (i + 1), oPrice env s k j) := by
      refine Finset.sum_congr rfl ?_
      intro k hk
      rw [Finset.mem_range] at hk
      exact midState_eval_optionletPrices env s st0 k j (by omega) hj
    rw [hsum, oPrice_sum env s j i, midState_eval_capfloorPrices env s st0 i j hi hj]

theorem claim_C5_witness :
    (∀ i, i < sampleStripper.nOptionletTenors → ∀ j, j < sampleStripper.nStrikes →
      cellOk sampleEnv sampleStripper sampleStripper.initState i j = true) ∧
    ((performCalculations sampleEnv sampleStripper sampleStripper.initState).1.optionletPrices 1 0 =
      (performCalculations sampleEnv sampleStripper sampleStripper.initState).1.capfloorPrices 1 0 -
        (if (1 : Nat) = 0 then 0 else
          (performCalculations sampleEnv sampleStripper sampleStripper.initState).1.capfloorPrices 0 0) ∧
      (∑ k ∈ Finset.range 2,
        (performCalculations sampleEnv sampleStripper sampleStripper.initState).1.optionletPrices k 0) =
        (performCalculations sampleEnv sampleStripper sampleStripper.initState).1.capfloorPrices 1 0) :=
  ⟨by decide, claim_C5_differencing sampleEnv sampleStripper sampleStripper.initState
    (by decide) 1 0 (by decide) (by decide)⟩

/-- C6: after a successful pass, every populated cell's annualized
optionlet volatility is exactly its standard deviation divided by the
square root of the cell's time to expiry. -/
theorem claim_C6_annualize (env : MarketEnv) (s : OptionletStripper) (st0 : CalcState)
    (hok : ∀ i, i < s.nOptionletTenors → ∀ j, j < s.nStrikes →
      cellOk env s st0 i j = true)
    (i j : Nat) (hi : i < s.nOptionletTenors) (hj : j < s.nStrikes) :
    (performCalculations env s st0).1.optionletVols i j =
      (performCalculations env s st0).1.optionletStDevs i j /
        env.sqrtQ (optionletTimes env s i) := by
  rw [performCalculations_ok env s st0 (fun a b ha hb => hok a ha b hb)]
  rw [midState_eval_optionletVols env s st0 i j hi hj,
    midState_eval_optionletStDevs env s st0 i j hi hj]

theorem claim_C6_witness :
    (performCalculations sampleEnv sampleStripper sampleStripper.initState).1.optionletVols 0 0 =
      (performCalculations sampleEnv sampleStripper sampleStripper.initState).1.optionletStDevs 0 0 /
        sampleEnv.sqrtQ (optionletTimes sampleEnv sampleStripper 0) :=
  claim_C6_annualize sampleEnv sampleStripper sampleStripper.initState (by decide) 0 0
    (by decide) (by decide)

theorem cellDone_after_fail_strict (n bf f i2 j2 : Nat)
    (hafter : bf < j2 ∨ (j2 = bf ∧ f < i2)) : ¬ cellDone n bf (f + 1) i2 j2 := by
  unfold cellDone
  omega

theorem cellDone_after_fail (n bf f i2 j2 : Nat)
    (hafter : bf < j2 ∨ (j2 = bf ∧ f < i2)) : ¬ cellDone n bf f i2 j2 := by
  unfold cellDone
  omega

/-- C8: when the Black-76 inversion fails at a cell (all cells before it
in iteration order having succeeded), the whole pass aborts with a
diagnostic carrying the period date, option type, strike, forward rate,
stripped optionlet price, annuity, and the solver's message — and no cell
after the failing one (same column below it, or any later column) is
touched. -/
theorem claim_C8_failfast (env : MarketEnv) (s : OptionletStripper) (st0 : CalcState)
    (bf f i2 j2 : Nat) (e : String) (hbf : bf < s.nStrikes) (hf : f < s.nOptionletTenors)
    (hcols : ∀ i, i < s.nOptionletTenors → ∀ j, j < bf → cellOk env s st0 i j = true)
    (hrows : ∀ i, i < f → cellOk env s st0 i bf = true)
    (herr : solveCell env s st0 f bf = Except.error e)
    (hafter : bf < j2 ∨ (j2 = bf ∧ f < i2)) :
    performCalculations env s st0 =
      (failCellState env s st0 bf f,
        some ⟨optionletDates env s f, oType env s f bf, strikeAt env bf,
          atmOptionletRate env s f, oPrice env s f bf, optionletAnnuity env s f, e⟩) ∧
      (performCalculations env s st0).1.capfloorPrices i2 j2 = st0.capfloorPrices i2 j2 ∧
      (performCalculations env s st0).1.optionletPrices i2 j2 = st0.optionletPrices i2 j2 ∧
      (performCalculations env s st0).1.capfloorVols i2 j2 = st0.capfloorVols i2 j2 ∧
      (performCalculations env s st0).1.optionletVols i2 j2 = st0.optionletVols i2 j2 ∧
      (performCalculations env s st0).1.optionletStDevs i2 j2 = st0.optionletStDevs i2 j2 := by
  have hfail := performCalculations_fail env s st0 bf f e hbf hf
    (fun i j hi hj => hcols i hi j hj) hrows herr
  refine ⟨hfail, ?_, ?_, ?_, ?_, ?_⟩ <;> rw [hfail] <;> simp only [failCellState]
  · rw [if_neg (cellDone_after_fail_strict s.nOptionletTenors bf f i2 j2 hafter)]
  · rw [if_neg (cellDone_after_fail_strict s.nOptionletTenors bf f i2 j2 hafter)]
  · rw [if_neg (cellDone_after_fail_strict s.nOptionletTenors bf f i2 j2 hafter)]
  · rw [if_neg (cellDone_after_fail s.nOptionletTenors bf f i2 j2 hafter)]
  · rw [if_neg (cellDone_after_fail s.nOptionletTenors bf f i2 j2 hafter)]

theorem claim_C8_witness :
    performCalculations sampleFailEnv sampleStripper sampleStripper.initState =
      (failCellState sampleFailEnv sampleStripper sampleStripper.initState 0 0,
        some ⟨optionletDates sampleFailEnv sampleStripper 0,
          oType sampleFailEnv sampleStripper 0 0, strikeAt sampleFailEnv 0,
          atmOptionletRate sampleFailEnv sampleStripper 0,
          oPrice sampleFailEnv sampleStripper 0 0,
          optionletAnnuity sampleFailEnv sampleStripper 0, "no solution"⟩) ∧
      (performCalculations sampleFailEnv sampleStripper sampleStripper.initState).1.capfloorPrices 1 0 =
        sampleStripper.initState.capfloorPrices 1 0 ∧
      (performCalculations sampleFailEnv sampleStripper sampleStripper.initState).1.optionletPrices 1 0 =
        sampleStripper.initState.optionletPrices 1 0 ∧
      (performCalculations sampleFailEnv sampleStripper sampleStripper.initState).1.capfloorVols 1 0 =
        sampleStripper.initState.capfloorVols 1 0 ∧
      (performCalculations sampleFailEnv sampleStripper sampleStripper.initState).1.optionletVols 1 0 =
        sampleStripper.initState.optionletVols 1 0 ∧
      (performCalculations sampleFailEnv sampleStripper sampleStripper.initState).1.optionletStDevs 1 0 =
        sampleStripper.initState.optionletStDevs 1 0 :=
  claim_C8_failfast sampleFailEnv sampleStripper sampleStripper.initState 0 0 1 0
    "no solution" (by decide) (by decide) (by decide) (by decide) rfl
    (by decide)

/-- C9: every standard-deviation cell starts at the strictly positive
constant first guess 0.14 at construction; within a pass the guess handed
to the solver for a cell is that cell's current (start-of-pass) value; a
successfully solved cell is overwritten with the solver's output, and the
failing cell keeps its prior value. -/
theorem claim_C9_warmstart (τ T ns : Nat) (sw : List ℚ) (s2 : OptionletStripper)
    (hs2 : mkOptionletStripper τ T sw ns = some s2) (a d : Nat) (env : MarketEnv)
    (s : OptionletStripper) (st0 : CalcState) (bf f i0 j0 : Nat) (e : String)
    (hbf : bf < s.nStrikes) (hf : f < s.nOptionletTenors)
    (hcols : ∀ i, i < s.nOptionletTenors → ∀ j, j < bf → cellOk env s st0 i j = true)
    (hrows : ∀ i, i < f → cellOk env s st0 i bf = true)
    (herr : solveCell env s st0 f bf = Except.error e)
    (hdone : cellDone s.nOptionletTenors bf f i0 j0) :
    s2.initState.optionletStDevs a d = (0.14 : ℚ) ∧ (0 : ℚ) < (0.14 : ℚ) ∧
      solveCell env s st0 f bf =
        env.blackSolver (oType env s f bf) (strikeAt env bf) (atmOptionletRate env s f)
          (oPrice env s f bf) (optionletAnnuity env s f) (st0.optionletStDevs f bf) ∧
      (performCalculations env s st0).1.optionletStDevs i0 j0 =
        solvedStDev env s st0 i0 j0 ∧
      (performCalculations env s st0).1.optionletStDevs f bf =
        st0.optionletStDevs f bf := by
  obtain ⟨hT, m, hm, hgrid, hten, hlen, hn, hmb, hswlen, hsw, hns, hinit⟩ :=
    mk_spec τ T ns sw s2 hs2
  have hfail := performCalculations_fail env s st0 bf f e hbf hf
    (fun i j hi hj => hcols i hi j hj) hrows herr
  refine ⟨?_, by norm_num, rfl, ?_, ?_⟩
  · rw [hinit]
    rfl
  · rw [hfail]
    simp only [failCellState]
    rw [if_pos hdone]
  · rw [hfail]
    simp only [failCellState]
    rw [if_neg (cellDone_not_self s.nOptionletTenors bf f)]

theorem claim_C9_witness :
    sampleStripper.initState.optionletStDevs 0 0 = (0.14 : ℚ) ∧ (0 : ℚ) < (0.14 : ℚ) ∧
      solveCell samplePartialEnv sampleStripper sampleStripper.initState 1 0 =
        samplePartialEnv.blackSolver (oType samplePartialEnv sampleStripper 1 0)
          (strikeAt samplePartialEnv 0) (atmOptionletRate samplePartialEnv sampleStripper 1)
          (oPrice samplePartialEnv sampleStripper 1 0)
          (optionletAnnuity samplePartialEnv sampleStripper 1)
          (sampleStripper.initState.optionletStDevs 1 0) ∧
      (performCalculations samplePartialEnv sampleStripper
        sampleStripper.initState).1.optionletStDevs 0 0 =
        solvedStDev samplePartialEnv sampleStripper sampleStripper.initState 0 0 ∧
      (performCalculations samplePartialEnv sampleStripper
        sampleStripper.initState).1.optionletStDevs 1 0 =
        sampleStripper.initState.optionletStDevs 1 0 :=
  claim_C9_warmstart 3 24 1 [] sampleStripper rfl 0 0 samplePartialEnv sampleStripper
    sampleStripper.initState 0 1 0 0 "price out of bounds" (by decide) (by decide)
    (by decide) (by with_unfolding_all decide) (by with_unfolding_all rfl) (by decide)

/-- C10: the accrual period of every optionlet is the hard-coded constant
0.5 — taking no schedule, day-counter or tenor input at all — so the
annuity fed into every cell's Black-76 inversion is 0.5 times the discount
factor at the period's optionlet date. -/
theorem claim_C10_accrual (env : MarketEnv) (s : OptionletStripper) (st0 : CalcState)
    (i j : Nat) :
    optionletAccrualPeriods i = (0.5 : ℚ) ∧
      optionletAnnuity env s i = (0.5 : ℚ) * env.discount (optionletDates env s i) ∧
      solveCell env s st0 i j =
        env.blackSolver (oType env s i j) (strikeAt env j) (atmOptionletRate env s i)
          (oPrice env s i j) ((0.5 : ℚ) * env.discount (optionletDates env s i))
          (st0.optionletStDevs i j) := by
  exact ⟨rfl, rfl, rfl⟩

theorem claim_C7_witness :
    sampleStripper.switchStrikes.length = sampleStripper.nOptionletTenors ∧
      sampleStripper.switchStrikes =
        (if ([] : List ℚ).length = 1 then
          List.replicate sampleStripper.nOptionletTenors (([] : List ℚ).getD 0 0)
         else if ([] : List ℚ) = [] then
          List.replicate sampleStripper.nOptionletTenors (0.04 : ℚ)
         else []) ∧
      ((mkOptionletStripper 3 24 [(0.01 : ℚ), (0.02 : ℚ)] 1).isSome ↔
        [(0.01 : ℚ), (0.02 : ℚ)].length = sampleStripper.nOptionletTenors) :=
  claim_C7_switchStrikes 3 24 1 [] [(0.01 : ℚ), (0.02 : ℚ)] sampleStripper rfl
    (by decide) (by decide)
